import Mathlib

/-!
Verification of the two scripts in `jgehrcke/freenas-utils`:

* `conditionalshutdown.py` — pings a fixed list of hosts; if none responds
  during a sustained window, invokes `shutdown -p now`.
* `syncdir_rsynctasks.py` — runs a fixed list of rsync mirroring tasks
  sequentially, logging each task's output to a per-task, per-run file.

The embedding models external effects (subprocess results, the filesystem,
wall-clock time) as explicit parameters, and records observable actions
(subprocess invocations, log-file writes, error log lines) in event traces.
-/

/-! ## Model of `conditionalshutdown.py` -/

abbrev Host := String

/-- Result of attempting to launch an external command: either the launch
itself raises `OSError` (binary missing, permission error, ...) or the
command runs and exits with the given return code. -/
inductive CallOutcome where
  | oserror
  | rc (code : Nat)
deriving DecidableEq, Repr

/-- Observable events of `conditionalshutdown.py`: a `ping` subprocess
invocation for a host, an error log line (`log.error`), and the
`/sbin/shutdown -p now` subprocess invocation. -/
inductive Event where
  | ping (host : Host)
  | errorLog
  | shutdownCall
deriving DecidableEq, Repr

/-- How a run of the script ends: `exited c` models `sys.exit(c)` (and a
Python `AssertionError`, which makes the interpreter exit with status 1);
`completed` models `main` returning normally (process exit status 0). -/
inductive Outcome where
  | exited (code : Nat)
  | completed
deriving DecidableEq, Repr

/-- `HOSTS_TO_CHECK` from `conditionalshutdown.py`. -/
def HOSTS_TO_CHECK : List Host := ["hostname1", "hostname2", "192.168.1.5"]

/-- `REQUIRED_OFFLINE_SECONDS` from `conditionalshutdown.py`. -/
def REQUIRED_OFFLINE_SECONDS : Nat := 300

/-- `POLLING_INTERVAL_SECONDS` from `conditionalshutdown.py`. -/
def POLLING_INTERVAL_SECONDS : Nat := 30

/-- Model of `run_subprocess(cmdlist)`: the event `callEv` records the
`Popen` invocation; on `OSError` the script writes an error log line and
calls `sys.exit(1)` (modelled as `Except.error 1`), otherwise the
subprocess return code is handed back. -/
def run_subprocess (callEv : Event) (o : CallOutcome) : List Event × Except Nat Nat :=
  match o with
  | .oserror => ([callEv, .errorLog], .error 1)
  | .rc c => ([callEv], .ok c)

/-- Model of `host_responding(host)`: runs `ping -o -t 5 host` via
`run_subprocess`; the host counts as responding iff the exit status is
exactly 0 (`if not rc: return True`). -/
def host_responding (pr : Host → CallOutcome) (h : Host) : List Event × Except Nat Bool :=
  match run_subprocess (.ping h) (pr h) with
  | (ev, .error c) => (ev, .error c)
  | (ev, .ok c) => (ev, .ok (decide (c = 0)))

/-- Model of `exit_if_any_host_up()`: probes the hosts in listed order;
on the first responding host it calls `sys.exit(0)` (`Except.error 0`),
skipping the remaining hosts; `Except.ok ()` means every host was probed
and none responded. The trace collects the events of the probes actually
performed. -/
def exit_if_any_host_up (pr : Host → CallOutcome) : List Host → List Event × Except Nat Unit
  | [] => ([], .ok ())
  | h :: rest =>
    match host_responding pr h with
    | (ev, .error c) => (ev, .error c)
    | (ev, .ok true) => (ev, .error 0)
    | (ev, .ok false) =>
      let r := exit_if_any_host_up pr rest
      (ev ++ r.1, r.2)

/-- Result of a modelled run of `main()`: the event trace, the number of
waiting-phase aggregator invocations (polls inside the `while` loop), and
how the process ended. -/
structure CondResult where
  events : List Event
  polls : Nat
  outcome : Outcome
deriving DecidableEq, Repr

/-- Model of the tail of `main()`: `run_subprocess(['/sbin/shutdown', '-p',
'now'])`, whose return code is logged; an `OSError` there still means
`sys.exit(1)` inside `run_subprocess`. -/
def shutdownStep (sd : CallOutcome) : List Event × Outcome :=
  match run_subprocess Event.shutdownCall sd with
  | (ev, .error c) => (ev, .exited c)
  | (ev, .ok _) => (ev, .completed)

/-- Model of the `while time.time() < deadline` loop in `main()`.
`pr k h` is the outcome of pinging host `h` during aggregator round `k`
(round 0 is the initial check, rounds 1, 2, ... are the waiting polls);
`dur k` is the wall-clock duration of round `k`; each `time.sleep` advances
time by exactly `Iv` seconds.  The loop body sleeps first and then probes,
so round `k`, entered at time `now`, finishes at `now + Iv + dur k`.
`fuel` bounds the recursion; `condMain` supplies enough fuel for any
positive polling interval. -/
def condLoop (hosts : List Host) (pr : Nat → Host → CallOutcome) (dur : Nat → Nat)
    (Iv deadline : Nat) (sd : CallOutcome) : Nat → Nat → Nat → Option CondResult
  | 0, _, _ => none
  | fuel + 1, k, now =>
    if now < deadline then
      let r := exit_if_any_host_up (pr k) hosts
      match r.2 with
      | .error c => some ⟨r.1, 1, .exited c⟩
      | .ok _ =>
        match condLoop hosts pr dur Iv deadline sd fuel (k + 1) (now + Iv + dur k) with
        | none => none
        | some res => some ⟨r.1 ++ res.events, res.polls + 1, res.outcome⟩
    else
      let s := shutdownStep sd
      some ⟨s.1, 0, s.2⟩

/-- Model of `main()`: the initial check runs immediately (round 0); if no
host responds, `deadline = time.time() + R` is computed once (the initial
check took `dur 0` seconds, so `time.time()` is `t0 + dur 0` there) and the
polling loop runs until the deadline passes, after which the shutdown
command is invoked. -/
def condMain (hosts : List Host) (pr : Nat → Host → CallOutcome) (dur : Nat → Nat)
    (R Iv t0 : Nat) (sd : CallOutcome) : Option CondResult :=
  let r0 := exit_if_any_host_up (pr 0) hosts
  match r0.2 with
  | .error c => some ⟨r0.1, 0, .exited c⟩
  | .ok _ =>
    let t1 := t0 + dur 0
    match condLoop hosts pr dur Iv (t1 + R) sd (R + 1) 1 t1 with
    | none => none
    | some res => some ⟨r0.1 ++ res.events, res.polls, res.outcome⟩

/-- Model of the whole script: the module-level statement
`assert REQUIRED_OFFLINE_SECONDS > 2*POLLING_INTERVAL_SECONDS` runs when
the module loads, before logging is set up and before `main()` is called;
a failing `assert` raises `AssertionError` and the interpreter exits with
status 1 without having probed anything. -/
def condScript (hosts : List Host) (pr : Nat → Host → CallOutcome) (dur : Nat → Nat)
    (R Iv t0 : Nat) (sd : CallOutcome) : Option CondResult :=
  if 2 * Iv < R then condMain hosts pr dur R Iv t0 sd
  else some ⟨[], 0, .exited 1⟩

/-- Loop-entry time of successive waiting rounds: starting from round `k`
entered at time `now`, `entryFrom Iv dur now k d` is the time at which
round `k + d` is entered (each round sleeps `Iv` and then probes for
`dur` of the round just run). -/
def entryFrom (Iv : Nat) (dur : Nat → Nat) : Nat → Nat → Nat → Nat
  | now, _, 0 => now
  | now, k, d + 1 => entryFrom Iv dur (now + Iv + dur k) (k + 1) d

/-! ## Model of `syncdir_rsynctasks.py` -/

/-- `RSYNC_LOGFILES_DIR` from `syncdir_rsynctasks.py`. -/
def RSYNC_LOGFILES_DIR : String :=
  "/mnt/two_3TB_disks/jpg_private/home/progg0rn/nas_scripts/syncdir_rsynctasks/rsynclogs"

/-- `TASKS` from `syncdir_rsynctasks.py`: (name, source dir, target dir). -/
def TASKS : List (String × String × String) := [
  ("home", "/mnt/two_3TB_disks/jpg_private/home", "/mnt/usbbackup/synctargets/jpg_private"),
  ("sshadmin_home", "/mnt/two_3TB_disks/sshadmin_home", "/mnt/usbbackup/synctargets"),
  ("user_home", "/mnt/two_3TB_disks/user_home", "/mnt/usbbackup/synctargets"),
  ("photos", "/mnt/two_3TB_disks/jpg_private/photos", "/mnt/usbbackup/synctargets/jpg_private"),
  ("guterstuff", "/mnt/two_3TB_disks/jpg_private/guterstuff", "/mnt/usbbackup/synctargets/jpg_private"),
  ("audio", "/mnt/two_3TB_disks/media/__AUDIO__", "/mnt/usbbackup/synctargets/media")]

/-- Model of `timestr()`, i.e. `strftime("%Y%m%d-%H%M%S", localtime())`:
a timestamp with one-second resolution.  Wall-clock instants are modelled
in hundredths of a second since the epoch; the rendered string depends
only on the enclosing second (`t / 100`), exactly as a `%H%M%S`-style
format does, and distinct seconds render distinctly. -/
def timestr (tCentis : Nat) : String :=
  Nat.repr (tCentis / 100)

/-- The rsync capture-log file name built in `_run_rsync`:
`"rsync_stdouterr_%s_%s.log" % (self.name, timestr())`. -/
def logfname (name ts : String) : String :=
  "rsync_stdouterr_" ++ name ++ "_" ++ ts ++ ".log"

/-- A sync task as validated and stored by `SyncDirTask.__init__`. -/
structure SyncDirTask where
  name : String
  source_dir : String
  target_dir : String
deriving DecidableEq, Repr

/-- Observable events of `syncdir_rsynctasks.py`. -/
inductive SEvent where
  | taskStartLog (name : String)
  | logOpened (fname : String)
  | rsyncInvoked (name : String)
  | rsyncOkLog
  | rsyncFailedLog (rc : Nat)
  | rsyncOsErrorLog
  | summaryWritten (fname : String)
  | taskFinishedLog (name : String)
  | constructErrorLog
deriving DecidableEq, Repr

/-- What a single executed task left behind: the capture-log file that was
opened (mode `"w"`: created or truncated), whether `self._duration` and
`self._rsync_returncode` were assigned, and whether the two wrapper summary
lines were written into the capture log. -/
structure TaskRun where
  name : String
  logfile : String
  opened : Bool
  durationSet : Bool
  returncode : Option Nat
  summaryWritten : Bool
deriving DecidableEq, Repr

/-- Model of Python's `source_dir.endswith("/")`: whether the last
character of the string is the path separator `/`. -/
def endsWithSlash (s : String) : Bool :=
  s.data.getLast? == some '/'

/-- The construction-time checks of `SyncDirTask.__init__`: source and
target must be existing directories, the source must not end with `"/"`,
and `assert os.path.isdir(self._logfile_dir)` must hold. Each violation
makes the whole process exit with status 1. -/
def taskCheck (isdir : String → Bool) (source_dir target_dir : String) : Bool :=
  isdir source_dir && isdir target_dir && !(endsWithSlash source_dir) && isdir RSYNC_LOGFILES_DIR

/-- Model of the list comprehension
`tasks = [SyncDirTask(n,s,t) for n,s,t in TASKS]` in `main()`: every task
is constructed (and validated) before any task runs; the first violation
logs an error and exits the process with status 1. -/
def constructTasks (isdir : String → Bool) :
    List (String × String × String) → List SEvent × Except Nat (List SyncDirTask)
  | [] => ([], .ok [])
  | (n, s, t) :: rest =>
    if taskCheck isdir s t then
      match constructTasks isdir rest with
      | (ev, .error c) => (ev, .error c)
      | (ev, .ok tasks) => (ev, .ok (⟨n, s, t⟩ :: tasks))
    else ([.constructErrorLog], .error 1)

/-- Model of `SyncDirTask.run` / `_run_rsync` for one task: the capture
log is opened for writing (created/truncated) before rsync is invoked;
on `OSError` the error is logged and `_run_rsync` returns without setting
`_duration`/`_rsync_returncode` and without the wrapper summary lines;
otherwise the return code is logged (as an error when nonzero), the
attributes are set and the two summary lines are written.  `run` logs
"Task ... finished." in every case. -/
def runTask (co : CallOutcome) (ts : String) (t : SyncDirTask) : List SEvent × TaskRun :=
  let fname := logfname t.name ts
  match co with
  | .oserror =>
    ([.taskStartLog t.name, .logOpened fname, .rsyncInvoked t.name, .rsyncOsErrorLog,
      .taskFinishedLog t.name],
     ⟨t.name, fname, true, false, none, false⟩)
  | .rc c =>
    ([.taskStartLog t.name, .logOpened fname, .rsyncInvoked t.name,
      if c = 0 then .rsyncOkLog else .rsyncFailedLog c,
      .summaryWritten fname, .taskFinishedLog t.name],
     ⟨t.name, fname, true, true, some c, true⟩)

/-- Model of the `for t in tasks: t.run()` loop: tasks run strictly in
list order; `rs i` is the outcome of the rsync invocation of task `i` and
`ts i` the timestamp string at which task `i` starts. -/
def runTasks (rs : Nat → CallOutcome) (ts : Nat → String) :
    Nat → List SyncDirTask → List SEvent × List TaskRun
  | _, [] => ([], [])
  | i, t :: rest =>
    let r := runTask (rs i) (ts i) t
    let rr := runTasks rs ts (i + 1) rest
    (r.1 ++ rr.1, r.2 :: rr.2)

/-- Model of `main()` of `syncdir_rsynctasks.py`: construct (and validate)
all tasks first, then run them in order.  `Except.error c` models the
process dying with exit status `c` during construction; `Except.ok runs`
models normal completion. -/
def syncMain (isdir : String → Bool) (rs : Nat → CallOutcome) (ts : Nat → String)
    (triples : List (String × String × String)) : List SEvent × Except Nat (List TaskRun) :=
  match constructTasks isdir triples with
  | (ev, .error c) => (ev, .error c)
  | (ev, .ok tasks) =>
    let rr := runTasks rs ts 0 tasks
    (ev ++ rr.1, .ok rr.2)

/-- The names for which an rsync subprocess was actually invoked, in trace
order. -/
def rsyncCalls (evs : List SEvent) : List String :=
  evs.filterMap fun e => match e with | .rsyncInvoked n => some n | _ => none

/-! ## Lemmas about the liveness aggregator -/

theorem agg_no_shutdown_event (pr : Host → CallOutcome) (hs : List Host) :
    Event.shutdownCall ∉ (exit_if_any_host_up pr hs).1 := by
  induction hs with
  | nil => simp [exit_if_any_host_up]
  | cons h rest ih =>
    simp only [exit_if_any_host_up]
    cases hpr : pr h with
    | oserror => simp [host_responding, run_subprocess, hpr]
    | rc c =>
      cases c with
      | zero => simp [host_responding, run_subprocess, hpr]
      | succ n =>
        simp only [host_responding, run_subprocess, hpr]
        simp [ih]

theorem agg_all_dead (pr : Host → CallOutcome) (hs : List Host)
    (hd : ∀ h ∈ hs, ∃ c, pr h = .rc c ∧ c ≠ 0) :
    exit_if_any_host_up pr hs = (hs.map Event.ping, .ok ()) := by
  induction hs with
  | nil => simp [exit_if_any_host_up]
  | cons h rest ih =>
    obtain ⟨c, hc, hc0⟩ := hd h (List.mem_cons_self h rest)
    obtain ⟨n, rfl⟩ := Nat.exists_eq_succ_of_ne_zero hc0
    simp only [exit_if_any_host_up, host_responding, run_subprocess, hc]
    simp [ih fun h hm => hd h (List.mem_cons_of_mem _ hm)]

theorem agg_alive (pr : Host → CallOutcome) (hs : List Host)
    (hno : ∀ h ∈ hs, pr h ≠ .oserror) (hal : ∃ h ∈ hs, pr h = .rc 0) :
    (exit_if_any_host_up pr hs).2 = .error 0 := by
  induction hs with
  | nil => simp at hal
  | cons h rest ih =>
    simp only [exit_if_any_host_up]
    cases hpr : pr h with
    | oserror => exact absurd hpr (hno h (List.mem_cons_self h rest))
    | rc c =>
      cases c with
      | zero => simp [host_responding, run_subprocess, hpr]
      | succ n =>
        simp only [host_responding, run_subprocess, hpr]
        have hal' : ∃ h ∈ rest, pr h = .rc 0 := by
          obtain ⟨a, ham, ha⟩ := hal
          rcases List.mem_cons.mp ham with rfl | hm
          · rw [hpr] at ha; cases ha
          · exact ⟨a, hm, ha⟩
        simp [ih (fun h hm => hno h (List.mem_cons_of_mem _ hm)) hal']

theorem agg_first_alive (pr : Host → CallOutcome) (pre post : List Host) (a : Host)
    (hd : ∀ h ∈ pre, ∃ c, pr h = .rc c ∧ c ≠ 0) (ha : pr a = .rc 0) :
    exit_if_any_host_up pr (pre ++ a :: post) = ((pre ++ [a]).map Event.ping, .error 0) := by
  induction pre with
  | nil => simp [exit_if_any_host_up, host_responding, run_subprocess, ha]
  | cons h rest ih =>
    obtain ⟨c, hc, hc0⟩ := hd h (List.mem_cons_self h rest)
    obtain ⟨n, rfl⟩ := Nat.exists_eq_succ_of_ne_zero hc0
    simp only [List.cons_append, exit_if_any_host_up, host_responding, run_subprocess, hc]
    simp [ih fun h hm => hd h (List.mem_cons_of_mem _ hm)]

theorem agg_first_oserror (pr : Host → CallOutcome) (pre post : List Host) (a : Host)
    (hd : ∀ h ∈ pre, ∃ c, pr h = .rc c ∧ c ≠ 0) (ha : pr a = .oserror) :
    exit_if_any_host_up pr (pre ++ a :: post)
      = (pre.map Event.ping ++ [.ping a, .errorLog], .error 1) := by
  induction pre with
  | nil => simp [exit_if_any_host_up, host_responding, run_subprocess, ha]
  | cons h rest ih =>
    obtain ⟨c, hc, hc0⟩ := hd h (List.mem_cons_self h rest)
    obtain ⟨n, rfl⟩ := Nat.exists_eq_succ_of_ne_zero hc0
    simp only [List.cons_append, exit_if_any_host_up, host_responding, run_subprocess, hc]
    simp [ih fun h hm => hd h (List.mem_cons_of_mem _ hm)]

/-! ## Lemmas about the polling loop -/

theorem entryFrom_le (Iv : Nat) (dur : Nat → Nat) :
    ∀ d now k, now ≤ entryFrom Iv dur now k d := by
  intro d
  induction d with
  | zero => intro now k; simp [entryFrom]
  | succ d ih =>
    intro now k
    simp only [entryFrom]
    exact le_trans (by omega) (ih (now + Iv + dur k) (k + 1))

theorem entryFrom_add_le (Iv : Nat) (dur : Nat → Nat) (hI : 0 < Iv) :
    ∀ d now k, now + d ≤ entryFrom Iv dur now k d := by
  intro d
  induction d with
  | zero => intro now k; simp [entryFrom]
  | succ d ih =>
    intro now k
    simp only [entryFrom]
    have := ih (now + Iv + dur k) (k + 1)
    omega

theorem condLoop_all_dead (hosts : List Host) (pr : Nat → Host → CallOutcome)
    (dur : Nat → Nat) (Iv deadline : Nat) (src : Nat) (hI : 0 < Iv) :
    ∀ fuel k now, 0 < fuel → deadline < now + fuel →
    (∀ j, k ≤ j → j < k + fuel → ∀ h ∈ hosts, ∃ c, pr j h = .rc c ∧ c ≠ 0) →
    ∃ evs polls, condLoop hosts pr dur Iv deadline (.rc src) fuel k now
        = some ⟨evs, polls, .completed⟩ ∧ evs.count Event.shutdownCall = 1 := by
  intro fuel
  induction fuel with
  | zero => intro k now hf0 _ _; omega
  | succ fuel ih =>
    intro k now _ hlt hdead
    by_cases hnow : now < deadline
    · have hagg := agg_all_dead (pr k) hosts (hdead k le_rfl (by omega))
      obtain ⟨evs, polls, heq, hcnt⟩ :=
        ih (k + 1) (now + Iv + dur k) (by omega) (by omega)
          (fun j h1 h2 => hdead j (by omega) (by omega))
      refine ⟨hosts.map Event.ping ++ evs, polls + 1, ?_, ?_⟩
      · simp only [condLoop, if_pos hnow, hagg, heq]
      · rw [List.count_append, hcnt, Nat.add_comm]
        have : Event.shutdownCall ∉ hosts.map Event.ping := by simp
        simp [List.count_eq_zero.mpr this]
    · refine ⟨[Event.shutdownCall], 0, ?_, by decide⟩
      simp [condLoop, if_neg hnow, shutdownStep, run_subprocess]

theorem condLoop_early_exit (hosts : List Host) (pr : Nat → Host → CallOutcome)
    (dur : Nat → Nat) (Iv deadline : Nat) (sd : CallOutcome) (c m : Nat) :
    ∀ d fuel k now, k + d = m →
    (∀ j, k ≤ j → j < m → ∀ h ∈ hosts, ∃ cc, pr j h = .rc cc ∧ cc ≠ 0) →
    (exit_if_any_host_up (pr m) hosts).2 = .error c →
    entryFrom Iv dur now k d < deadline →
    d < fuel →
    ∃ evpre, condLoop hosts pr dur Iv deadline sd fuel k now
        = some ⟨evpre ++ (exit_if_any_host_up (pr m) hosts).1, d + 1, .exited c⟩
      ∧ Event.shutdownCall ∉ evpre := by
  intro d
  induction d with
  | zero =>
    intro fuel k now hkm hdead hx ht hf
    obtain ⟨fuel, rfl⟩ : ∃ f, fuel = f + 1 := ⟨fuel - 1, by omega⟩
    obtain rfl : m = k := by omega
    have hnow : now < deadline := by simpa [entryFrom] using ht
    refine ⟨[], ?_, by simp⟩
    simp only [condLoop, if_pos hnow, List.nil_append]
    rcases hr : exit_if_any_host_up (pr m) hosts with ⟨ev, r2⟩
    rw [hr] at hx
    simp only at hx
    subst hx
    simp [hr]
  | succ d ih =>
    intro fuel k now hkm hdead hx ht hf
    obtain ⟨fuel, rfl⟩ : ∃ f, fuel = f + 1 := ⟨fuel - 1, by omega⟩
    have hnow : now < deadline := by
      have h1 : entryFrom Iv dur (now + Iv + dur k) (k + 1) d < deadline := by
        simpa [entryFrom] using ht
      have h2 := entryFrom_le Iv dur d (now + Iv + dur k) (k + 1)
      omega
    have hagg := agg_all_dead (pr k) hosts (hdead k le_rfl (by omega))
    obtain ⟨evpre, heq, hmem⟩ :=
      ih fuel (k + 1) (now + Iv + dur k) (by omega)
        (fun j h1 h2 => hdead j (by omega) h2)
        hx (by simpa [entryFrom] using ht) (by omega)
    refine ⟨hosts.map Event.ping ++ evpre, ?_, ?_⟩
    · simp only [condLoop, if_pos hnow, hagg, heq, List.append_assoc]
    · simp [hmem]

theorem condLoop_completed_polls_pos (hosts : List Host) (pr : Nat → Host → CallOutcome)
    (dur : Nat → Nat) (Iv deadline : Nat) (sd : CallOutcome)
    (fuel k now : Nat) (res : CondResult)
    (heq : condLoop hosts pr dur Iv deadline sd fuel k now = some res)
    (hout : res.outcome = .completed) (hnow : now < deadline) :
    1 ≤ res.polls := by
  cases fuel with
  | zero => simp [condLoop] at heq
  | succ fuel =>
    simp only [condLoop, if_pos hnow] at heq
    rcases hr : (exit_if_any_host_up (pr k) hosts).2 with c | u
    · rw [hr] at heq
      simp at heq
      rw [← heq] at hout
      simp at hout
    · rw [hr] at heq
      simp only at heq
      rcases hrec : condLoop hosts pr dur Iv deadline sd fuel (k + 1) (now + Iv + dur k) with _ | res'
      · rw [hrec] at heq; simp at heq
      · rw [hrec] at heq
        simp at heq
        rw [← heq]
        simp

theorem condLoop_completed_polls_two (hosts : List Host) (pr : Nat → Host → CallOutcome)
    (dur : Nat → Nat) (Iv deadline : Nat) (sd : CallOutcome)
    (hdur : ∀ j, dur j ≤ Iv)
    (fuel k now : Nat) (res : CondResult)
    (heq : condLoop hosts pr dur Iv deadline sd fuel k now = some res)
    (hout : res.outcome = .completed) (hnow : now + Iv + Iv < deadline) :
    2 ≤ res.polls := by
  cases fuel with
  | zero => simp [condLoop] at heq
  | succ fuel =>
    have hnow' : now < deadline := by omega
    simp only [condLoop, if_pos hnow'] at heq
    rcases hr : (exit_if_any_host_up (pr k) hosts).2 with c | u
    · rw [hr] at heq
      simp at heq
      rw [← heq] at hout
      simp at hout
    · rw [hr] at heq
      simp only at heq
      rcases hrec : condLoop hosts pr dur Iv deadline sd fuel (k + 1) (now + Iv + dur k) with _ | res'
      · rw [hrec] at heq; simp at heq
      · rw [hrec] at heq
        simp at heq
        have hout' : res'.outcome = .completed := by rw [← heq] at hout; simpa using hout
        have hpos : 1 ≤ res'.polls :=
          condLoop_completed_polls_pos hosts pr dur Iv deadline sd fuel (k + 1)
            (now + Iv + dur k) res' hrec hout' (by have := hdur k; omega)
        rw [← heq]
        simp
        omega

/-! ## Claims about `conditionalshutdown.py` -/

/-- C1: if every host's probe returns dead (a nonzero ping exit status, no
launch failure) at the initial check and at every poll, the decision loop
terminates having invoked the shutdown command exactly once and `main`
returns normally (COMMITTED). -/
theorem c1_all_dead_commits_once (hosts : List Host) (pr : Nat → Host → CallOutcome)
    (dur : Nat → Nat) (R Iv t0 src : Nat) (hI : 0 < Iv)
    (hdead : ∀ k h, h ∈ hosts → ∃ c, pr k h = .rc c ∧ c ≠ 0) :
    (condMain hosts pr dur R Iv t0 (.rc src)).map
        (fun r => (r.outcome, r.events.count Event.shutdownCall)) = some (.completed, 1) := by
  have hagg := agg_all_dead (pr 0) hosts (fun h hm => hdead 0 h hm)
  obtain ⟨evs, polls, heq, hcnt⟩ :=
    condLoop_all_dead hosts pr dur Iv (t0 + dur 0 + R) src hI (R + 1) 1 (t0 + dur 0)
      (by omega) (by omega) (fun j _ _ h hm => hdead j h hm)
  have hping : Event.shutdownCall ∉ hosts.map Event.ping := by simp
  simp only [condMain, hagg, heq]
  simp [List.count_append, hcnt, List.count_eq_zero.mpr hping]

theorem c1_witness :
    (condMain ["h1"] (fun _ _ => .rc 2) (fun _ => 0) 7 3 0 (.rc 0)).map
        (fun r => (r.outcome, r.events.count Event.shutdownCall)) = some (.completed, 1) :=
  c1_all_dead_commits_once ["h1"] (fun _ _ => .rc 2) (fun _ => 0) 7 3 0 0 (by decide)
    (fun _ _ _ => ⟨2, rfl, by decide⟩)

/-- C2: if at the initial check, or at any waiting poll entered before the
deadline, some host's ping exits with status 0 (all earlier checks having
found every host dead), the process exits immediately with status 0 and
the shutdown command is never invoked. -/
theorem c2_alive_aborts (hosts : List Host) (pr : Nat → Host → CallOutcome)
    (dur : Nat → Nat) (R Iv t0 : Nat) (sd : CallOutcome) (k : Nat) (hI : 0 < Iv)
    (hdead : ∀ j, j < k → ∀ h ∈ hosts, ∃ c, pr j h = .rc c ∧ c ≠ 0)
    (hnos : ∀ h ∈ hosts, pr k h ≠ .oserror)
    (hal : ∃ h ∈ hosts, pr k h = .rc 0)
    (ht : k = 0 ∨ ∃ m, k = m + 1 ∧ entryFrom Iv dur (t0 + dur 0) 1 m < t0 + dur 0 + R) :
    (condMain hosts pr dur R Iv t0 sd).map
        (fun r => (r.outcome, r.events.count Event.shutdownCall)) = some (.exited 0, 0) := by
  rcases ht with rfl | ⟨m, rfl, hm⟩
  · have hx : (exit_if_any_host_up (pr 0) hosts).2 = .error 0 := agg_alive _ _ hnos hal
    have hnosd := agg_no_shutdown_event (pr 0) hosts
    rcases hr : exit_if_any_host_up (pr 0) hosts with ⟨ev, r2⟩
    rw [hr] at hx hnosd
    simp only at hx hnosd
    subst hx
    simp [condMain, hr, List.count_eq_zero.mpr hnosd]
  · have hagg0 := agg_all_dead (pr 0) hosts (hdead 0 (by omega))
    have hx : (exit_if_any_host_up (pr (m + 1)) hosts).2 = .error 0 := agg_alive _ _ hnos hal
    have hfuel : m < R + 1 := by
      have := entryFrom_add_le Iv dur hI m (t0 + dur 0) 1
      omega
    obtain ⟨evpre, heq, hpre⟩ :=
      condLoop_early_exit hosts pr dur Iv (t0 + dur 0 + R) sd 0 (m + 1) m (R + 1) 1 (t0 + dur 0)
        (by omega) (fun j _ h2 => hdead j h2) hx hm hfuel
    have hnosd := agg_no_shutdown_event (pr (m + 1)) hosts
    have hping : Event.shutdownCall ∉ hosts.map Event.ping := by simp
    simp only [condMain, hagg0, heq]
    simp [List.count_append, List.count_eq_zero.mpr hping, List.count_eq_zero.mpr hpre,
      List.count_eq_zero.mpr hnosd]

theorem c2_witness :
    (condMain ["h1"] (fun k _ => if k = 2 then .rc 0 else .rc 1) (fun _ => 0) 7 3 0 (.rc 0)).map
        (fun r => (r.outcome, r.events.count Event.shutdownCall)) = some (.exited 0, 0) :=
  c2_alive_aborts ["h1"] (fun k _ => if k = 2 then .rc 0 else .rc 1) (fun _ => 0) 7 3 0 (.rc 0) 2
    (by decide)
    (fun j hj h _ => ⟨1, by simp [show j ≠ 2 from by omega], by decide⟩)
    (fun h _ => by simp)
    ⟨"h1", by decide, by decide⟩
    (Or.inr ⟨1, rfl, by decide⟩)

/-- C3: the module-level assertion rejects any configuration with
`REQUIRED_OFFLINE_SECONDS <= 2*POLLING_INTERVAL_SECONDS` before any probe
runs (empty event trace, process exit status 1) — in particular
required=50, interval=30 — and any configuration with
`REQUIRED_OFFLINE_SECONDS > 2*POLLING_INTERVAL_SECONDS` is accepted (the
script proceeds to `main`). -/
theorem c3_assert_gate (hosts : List Host) (pr : Nat → Host → CallOutcome)
    (dur : Nat → Nat) (R Iv t0 : Nat) (sd : CallOutcome) :
    (R ≤ 2 * Iv → condScript hosts pr dur R Iv t0 sd = some ⟨[], 0, .exited 1⟩)
    ∧ (2 * Iv < R → condScript hosts pr dur R Iv t0 sd = condMain hosts pr dur R Iv t0 sd)
    ∧ condScript hosts pr dur 50 30 t0 sd = some ⟨[], 0, .exited 1⟩ := by
  refine ⟨fun h => ?_, fun h => ?_, ?_⟩
  · rw [condScript, if_neg (by omega)]
  · rw [condScript, if_pos h]
  · rw [condScript, if_neg (by omega)]

theorem c3_witness :
    condScript [] (fun _ _ => .rc 1) (fun _ => 0) 50 30 0 (.rc 0) = some ⟨[], 0, .exited 1⟩
    ∧ condScript [] (fun _ _ => .rc 1) (fun _ => 0) 7 3 0 (.rc 0)
        = condMain [] (fun _ _ => .rc 1) (fun _ => 0) 7 3 0 (.rc 0) :=
  ⟨(c3_assert_gate [] (fun _ _ => .rc 1) (fun _ => 0) 50 30 0 (.rc 0)).1 (by decide),
   (c3_assert_gate [] (fun _ _ => .rc 1) (fun _ => 0) 7 3 0 (.rc 0)).2.1 (by decide)⟩

/-- C4 counterexample: with requiredOfflineSeconds = 7 and
pollingIntervalSeconds = 3 the construction invariant `2*3 < 7` holds,
every probe is dead, each sleep advances time by exactly the interval, and
the single waiting-phase poll round takes 7 seconds (a nonnegative
probing time); the run commits (shutdown invoked, `main` completes) after
only 1 waiting-phase poll, not at least 2. -/
theorem c4_counterexample :
    2 * 3 < 7
    ∧ condMain ["a"] (fun _ _ => .rc 1) (fun j => if j = 1 then 7 else 0) 7 3 0 (.rc 0)
        = some ⟨[.ping "a", .ping "a", .shutdownCall], 1, .completed⟩
    ∧ ((condMain ["a"] (fun _ _ => .rc 1) (fun j => if j = 1 then 7 else 0) 7 3 0
          (.rc 0)).map CondResult.polls).getD 2 < 2 :=
  ⟨by decide, by decide, by decide⟩

/-- C4 (amended): under the construction invariant `2*Iv < R`, and a time
model where each sleep advances time by exactly the polling interval and
each aggregator round takes at most the polling interval (in particular
zero time), every run that commits to shutdown performs at least two
waiting-phase polls. -/
theorem c4_two_polls_before_commit (hosts : List Host) (pr : Nat → Host → CallOutcome)
    (dur : Nat → Nat) (R Iv t0 : Nat) (sd : CallOutcome) (res : CondResult)
    (hinv : 2 * Iv < R) (hdur : ∀ j, dur j ≤ Iv)
    (hm : condMain hosts pr dur R Iv t0 sd = some res)
    (hc : res.outcome = .completed) :
    2 ≤ res.polls := by
  rcases hr : exit_if_any_host_up (pr 0) hosts with ⟨ev0, r2⟩
  simp only [condMain, hr] at hm
  cases r2 with
  | error c =>
    simp only at hm
    rw [← Option.some_inj.mp hm] at hc
    simp at hc
  | ok u =>
    simp only at hm
    rcases hrec : condLoop hosts pr dur Iv (t0 + dur 0 + R) sd (R + 1) 1 (t0 + dur 0) with _ | res'
    · rw [hrec] at hm; simp at hm
    · rw [hrec] at hm
      simp only [Option.some_inj] at hm
      have hout' : res'.outcome = .completed := by rw [← hm] at hc; simpa using hc
      have h2 := condLoop_completed_polls_two hosts pr dur Iv (t0 + dur 0 + R) sd hdur
        (R + 1) 1 (t0 + dur 0) res' hrec hout' (by omega)
      rw [← hm]
      simpa using h2

theorem c4_witness :
    2 ≤ (CondResult.mk [.ping "a", .ping "a", .ping "a", .ping "a", .shutdownCall] 3
          .completed).polls :=
  c4_two_polls_before_commit ["a"] (fun _ _ => .rc 1) (fun _ => 0) 7 3 0 (.rc 0)
    ⟨[.ping "a", .ping "a", .ping "a", .ping "a", .shutdownCall], 3, .completed⟩
    (by decide) (fun _ => Nat.zero_le 3) (by decide) rfl

/-- C5: the liveness aggregator probes targets strictly in listed order;
it exits the program (status 0, "alive") at the first target whose ping
exit status is exactly 0, without probing the remaining targets, and it
reports all-dead only after every target in the list was probed with a
nonzero exit status. -/
theorem c5_aggregator_order (pr : Host → Nat) :
    (∀ (pre post : List Host) (a : Host), (∀ h ∈ pre, pr h ≠ 0) → pr a = 0 →
      exit_if_any_host_up (fun h => .rc (pr h)) (pre ++ a :: post)
        = ((pre ++ [a]).map Event.ping, .error 0))
    ∧ (∀ hs : List Host, (∀ h ∈ hs, pr h ≠ 0) →
      exit_if_any_host_up (fun h => .rc (pr h)) hs = (hs.map Event.ping, .ok ())) := by
  constructor
  · intro pre post a hd ha
    exact agg_first_alive _ pre post a (fun h hm => ⟨pr h, rfl, hd h hm⟩) (by rw [ha])
  · intro hs hd
    exact agg_all_dead _ hs (fun h hm => ⟨pr h, rfl, hd h hm⟩)

theorem c5_witness :
    exit_if_any_host_up (fun h => .rc (if h == "h2" then 0 else 5)) (["h1"] ++ "h2" :: ["h3"])
      = ((["h1"] ++ ["h2"]).map Event.ping, .error 0)
    ∧ exit_if_any_host_up (fun h => .rc (if h == "h2" then 0 else 5)) ["h1", "h3"]
      = (["h1", "h3"].map Event.ping, .ok ()) :=
  ⟨(c5_aggregator_order (fun h => if h == "h2" then 0 else 5)).1 ["h1"] ["h3"] "h2"
      (by decide) (by decide),
   (c5_aggregator_order (fun h => if h == "h2" then 0 else 5)).2 ["h1", "h3"] (by decide)⟩

/-- C6: a failure to launch the ping tool (OSError) at any check — after
any earlier hosts of that round probed dead and any earlier rounds were
all-dead — is fatal for the whole process: an error line is logged, the
process exits with status 1, and the shutdown command is never invoked
(the failure is not treated as "host unreachable"). -/
theorem c6_oserror_fatal (pre post : List Host) (a : Host)
    (pr : Nat → Host → CallOutcome) (dur : Nat → Nat) (R Iv t0 : Nat) (sd : CallOutcome)
    (k : Nat) (hI : 0 < Iv)
    (hdead : ∀ j, j < k → ∀ h ∈ pre ++ a :: post, ∃ c, pr j h = .rc c ∧ c ≠ 0)
    (hpre : ∀ h ∈ pre, ∃ c, pr k h = .rc c ∧ c ≠ 0)
    (ha : pr k a = .oserror)
    (ht : k = 0 ∨ ∃ m, k = m + 1 ∧ entryFrom Iv dur (t0 + dur 0) 1 m < t0 + dur 0 + R) :
    (condMain (pre ++ a :: post) pr dur R Iv t0 sd).map
        (fun r => (r.outcome, r.events.count Event.shutdownCall,
          decide (Event.errorLog ∈ r.events)))
      = some (.exited 1, 0, true) := by
  rcases ht with rfl | ⟨m, rfl, hm⟩
  · have hagg := agg_first_oserror (pr 0) pre post a hpre ha
    have hping : Event.shutdownCall ∉ pre.map Event.ping := by simp
    simp only [condMain, hagg]
    simp [List.count_append, List.count_eq_zero.mpr hping]
  · have hagg0 := agg_all_dead (pr 0) (pre ++ a :: post) (hdead 0 (by omega))
    have hagg := agg_first_oserror (pr (m + 1)) pre post a hpre ha
    have hx : (exit_if_any_host_up (pr (m + 1)) (pre ++ a :: post)).2 = .error 1 := by
      rw [hagg]
    have hfuel : m < R + 1 := by
      have := entryFrom_add_le Iv dur hI m (t0 + dur 0) 1
      omega
    obtain ⟨evpre, heq, hpre2⟩ :=
      condLoop_early_exit (pre ++ a :: post) pr dur Iv (t0 + dur 0 + R) sd 1 (m + 1) m (R + 1) 1
        (t0 + dur 0) (by omega) (fun j _ h2 => hdead j h2) hx hm hfuel
    have hping : Event.shutdownCall ∉ (pre ++ a :: post).map Event.ping := by simp
    have hping2 : Event.shutdownCall ∉ pre.map Event.ping := by simp
    have hping3 : Event.shutdownCall ∉ post.map Event.ping := by simp
    simp only [condMain, hagg0, heq, hagg]
    simp [List.count_append, List.count_eq_zero.mpr hping, List.count_eq_zero.mpr hping2,
      List.count_eq_zero.mpr hping3, List.count_eq_zero.mpr hpre2]

theorem c6_witness :
    (condMain (["h1"] ++ "h2" :: []) (fun k h => if k = 0 then .rc 1 else if h == "h2" then .oserror else .rc 1)
        (fun _ => 0) 7 3 0 (.rc 0)).map
        (fun r => (r.outcome, r.events.count Event.shutdownCall,
          decide (Event.errorLog ∈ r.events)))
      = some (.exited 1, 0, true) :=
  c6_oserror_fatal ["h1"] [] "h2"
    (fun k h => if k = 0 then .rc 1 else if h == "h2" then .oserror else .rc 1)
    (fun _ => 0) 7 3 0 (.rc 0) 1 (by decide)
    (fun j hj h _ => ⟨1, by simp [show j = 0 from by omega], by decide⟩)
    (fun h hm => by obtain rfl := List.mem_singleton.mp hm; exact ⟨1, by decide, by decide⟩)
    (by decide)
    (Or.inr ⟨0, rfl, by decide⟩)

/-! ## Lemmas about the task runner -/

theorem constructTasks_ok (isdir : String → Bool) (triples : List (String × String × String))
    (hok : ∀ x ∈ triples, taskCheck isdir x.2.1 x.2.2 = true) :
    constructTasks isdir triples
      = ([], .ok (triples.map fun x => ⟨x.1, x.2.1, x.2.2⟩)) := by
  induction triples with
  | nil => simp [constructTasks]
  | cons x rest ih =>
    rcases x with ⟨n, s, t⟩
    have hx := hok (n, s, t) (List.mem_cons_self _ _)
    simp only [constructTasks, hx, if_true]
    rw [ih fun y hy => hok y (List.mem_cons_of_mem _ hy)]
    rfl

theorem constructTasks_fail (isdir : String → Bool) (triples : List (String × String × String))
    (hbad : ∃ x ∈ triples, taskCheck isdir x.2.1 x.2.2 = false) :
    constructTasks isdir triples = ([.constructErrorLog], .error 1) := by
  induction triples with
  | nil => simp at hbad
  | cons x rest ih =>
    rcases x with ⟨n, s, t⟩
    by_cases hx : taskCheck isdir s t = true
    · have hbad' : ∃ y ∈ rest, taskCheck isdir y.2.1 y.2.2 = false := by
        obtain ⟨y, hym, hy⟩ := hbad
        rcases List.mem_cons.mp hym with rfl | hm
        · rw [hx] at hy; cases hy
        · exact ⟨y, hm, hy⟩
      simp only [constructTasks, hx, if_true]
      rw [ih hbad']
    · simp only [constructTasks, if_neg hx]

theorem runTask_calls (co : CallOutcome) (ts : String) (t : SyncDirTask) :
    rsyncCalls (runTask co ts t).1 = [t.name] := by
  cases co with
  | oserror => simp [runTask, rsyncCalls]
  | rc c =>
    by_cases hc : c = 0 <;> simp [runTask, rsyncCalls, hc]

theorem runTask_name (co : CallOutcome) (ts : String) (t : SyncDirTask) :
    (runTask co ts t).2.name = t.name := by
  cases co <;> simp [runTask]

theorem runTasks_calls (rs : Nat → CallOutcome) (ts : Nat → String) :
    ∀ (tasks : List SyncDirTask) (i : Nat),
    rsyncCalls (runTasks rs ts i tasks).1 = tasks.map SyncDirTask.name := by
  intro tasks
  induction tasks with
  | nil => intro i; simp [runTasks, rsyncCalls]
  | cons t rest ih =>
    intro i
    simp only [runTasks, List.map_cons]
    rw [rsyncCalls, List.filterMap_append, ← rsyncCalls, ← rsyncCalls,
      runTask_calls, ih (i + 1)]
    simp

theorem runTasks_names (rs : Nat → CallOutcome) (ts : Nat → String) :
    ∀ (tasks : List SyncDirTask) (i : Nat),
    (runTasks rs ts i tasks).2.map TaskRun.name = tasks.map SyncDirTask.name := by
  intro tasks
  induction tasks with
  | nil => intro i; simp [runTasks]
  | cons t rest ih =>
    intro i
    simp only [runTasks, List.map_cons]
    rw [runTask_name, ih (i + 1)]

theorem runTasks_failedLog (rs : Nat → CallOutcome) (ts : Nat → String) :
    ∀ (tasks : List SyncDirTask) (i j c : Nat), j < tasks.length →
    rs (i + j) = .rc c → c ≠ 0 →
    SEvent.rsyncFailedLog c ∈ (runTasks rs ts i tasks).1 := by
  intro tasks
  induction tasks with
  | nil => intro i j c hj _ _; simp at hj
  | cons t rest ih =>
    intro i j c hj hrs hc
    cases j with
    | zero =>
      simp only [Nat.add_zero] at hrs
      simp only [runTasks, List.mem_append]
      left
      simp [runTask, hrs, hc]
    | succ j =>
      simp only [runTasks, List.mem_append]
      right
      exact ih (i + 1) j c (by simpa using hj) (by rw [show i + 1 + j = i + (j + 1) from by omega]; exact hrs) hc

theorem runTasks_get (rs : Nat → CallOutcome) (ts : Nat → String) :
    ∀ (tasks : List SyncDirTask) (i j : Nat) (t : SyncDirTask), tasks[j]? = some t →
    (runTasks rs ts i tasks).2[j]? = some (runTask (rs (i + j)) (ts (i + j)) t).2 := by
  intro tasks
  induction tasks with
  | nil => intro i j t hj; simp at hj
  | cons t0 rest ih =>
    intro i j t hj
    cases j with
    | zero => simp at hj; simp [runTasks, hj]
    | succ j =>
      simp only [List.getElem?_cons_succ] at hj
      simp only [runTasks, List.getElem?_cons_succ]
      rw [ih (i + 1) j t hj, show i + 1 + j = i + (j + 1) from by omega]

theorem runTasks_events_sub (rs : Nat → CallOutcome) (ts : Nat → String) :
    ∀ (tasks : List SyncDirTask) (i j : Nat) (t : SyncDirTask), tasks[j]? = some t →
    ∀ e ∈ (runTask (rs (i + j)) (ts (i + j)) t).1, e ∈ (runTasks rs ts i tasks).1 := by
  intro tasks
  induction tasks with
  | nil => intro i j t hj; simp at hj
  | cons t0 rest ih =>
    intro i j t hj e he
    cases j with
    | zero =>
      simp at hj
      subst hj
      simp only [runTasks, List.mem_append]
      left
      simpa using he
    | succ j =>
      simp only [List.getElem?_cons_succ] at hj
      simp only [runTasks, List.mem_append]
      right
      exact ih (i + 1) j t hj e (by rw [show i + 1 + j = i + (j + 1) from by omega]; exact he)

/-! ## Claims about `syncdir_rsynctasks.py` -/

/-- C7: when all tasks pass the construction checks, every task is
executed exactly once, in listed order, no matter which exit statuses the
rsync invocations return; a nonzero rsync status is logged as an error but
the run still completes normally with one result per task. -/
theorem c7_nonzero_does_not_abort (isdir : String → Bool) (rs : Nat → CallOutcome)
    (ts : Nat → String) (triples : List (String × String × String))
    (hok : ∀ x ∈ triples, taskCheck isdir x.2.1 x.2.2 = true) :
    (syncMain isdir rs ts triples).2.toOption.map (List.map TaskRun.name)
        = some (triples.map fun x => x.1)
    ∧ rsyncCalls (syncMain isdir rs ts triples).1 = (triples.map fun x => x.1)
    ∧ ∀ j c, j < triples.length → rs j = .rc c → c ≠ 0 →
        SEvent.rsyncFailedLog c ∈ (syncMain isdir rs ts triples).1 := by
  have hcon := constructTasks_ok isdir triples hok
  refine ⟨?_, ?_, ?_⟩
  · simp only [syncMain, hcon]
    rw [Except.toOption]
    simp [runTasks_names, List.map_map]
  · simp only [syncMain, hcon]
    simp only [List.nil_append]
    rw [runTasks_calls]
    simp [List.map_map]
  · intro j c hj hrs hc
    simp only [syncMain, hcon, List.nil_append]
    have := runTasks_failedLog rs ts (triples.map fun x => ⟨x.1, x.2.1, x.2.2⟩) 0 j c
      (by simpa using hj) (by simpa using hrs) hc
    simpa using this

theorem c7_witness :
    (syncMain (fun _ => true) (fun i => .rc i) (fun _ => "T")
        [("a", "/s1", "/d"), ("b", "/s2", "/d"), ("c", "/s3", "/d")]).2.toOption.map
        (List.map TaskRun.name) = some ["a", "b", "c"]
    ∧ rsyncCalls (syncMain (fun _ => true) (fun i => .rc i) (fun _ => "T")
        [("a", "/s1", "/d"), ("b", "/s2", "/d"), ("c", "/s3", "/d")]).1 = ["a", "b", "c"]
    ∧ SEvent.rsyncFailedLog 1 ∈ (syncMain (fun _ => true) (fun i => .rc i) (fun _ => "T")
        [("a", "/s1", "/d"), ("b", "/s2", "/d"), ("c", "/s3", "/d")]).1 := by
  have h := c7_nonzero_does_not_abort (fun _ => true) (fun i => .rc i) (fun _ => "T")
    [("a", "/s1", "/d"), ("b", "/s2", "/d"), ("c", "/s3", "/d")] (fun x _ => by revert x; decide)
  exact ⟨h.1, h.2.1, h.2.2 1 1 (by decide) rfl (by decide)⟩

/-- C8: if any task triple has a source with a trailing separator, or a
source or target that is not an existing directory, the run dies with exit
status 1 during construction: no rsync is invoked and no capture-log file
is opened for any task. -/
theorem c8_construction_fails_fast (isdir : String → Bool) (rs : Nat → CallOutcome)
    (ts : Nat → String) (triples : List (String × String × String))
    (hbad : ∃ x ∈ triples,
      endsWithSlash x.2.1 = true ∨ isdir x.2.1 = false ∨ isdir x.2.2 = false) :
    syncMain isdir rs ts triples = ([.constructErrorLog], .error 1)
    ∧ rsyncCalls (syncMain isdir rs ts triples).1 = []
    ∧ ∀ f, SEvent.logOpened f ∉ (syncMain isdir rs ts triples).1 := by
  have hbad' : ∃ x ∈ triples, taskCheck isdir x.2.1 x.2.2 = false := by
    obtain ⟨x, hxm, hx⟩ := hbad
    refine ⟨x, hxm, ?_⟩
    rcases hx with h | h | h <;> simp [taskCheck, h]
  have hcon := constructTasks_fail isdir triples hbad'
  have hmain : syncMain isdir rs ts triples = ([.constructErrorLog], .error 1) := by
    simp only [syncMain, hcon]
  refine ⟨hmain, ?_, ?_⟩
  · rw [hmain]; decide
  · intro f; rw [hmain]; simp

theorem c8_witness :
    syncMain (fun _ => true) (fun _ => .rc 0) (fun _ => "T") [("a", "/s1/", "/d")]
        = ([.constructErrorLog], .error 1)
    ∧ rsyncCalls (syncMain (fun _ => true) (fun _ => .rc 0) (fun _ => "T")
        [("a", "/s1/", "/d")]).1 = []
    ∧ ∀ f, SEvent.logOpened f ∉ (syncMain (fun _ => true) (fun _ => .rc 0) (fun _ => "T")
        [("a", "/s1/", "/d")]).1 :=
  c8_construction_fails_fast (fun _ => true) (fun _ => .rc 0) (fun _ => "T")
    [("a", "/s1/", "/d")] ⟨("a", "/s1/", "/d"), by decide, Or.inl (by decide)⟩

/-- C9 counterexample: two runs of the same task at distinct instants
(0.0 s and 0.5 s after the epoch) fall in the same second, so `timestr`
renders the same string and the capture-log file names coincide — repeated
runs can collide. -/
theorem c9_counterexample :
    (0 : Nat) ≠ 50 ∧ timestr 0 = timestr 50
    ∧ logfname "home" (timestr 0) = logfname "home" (timestr 50) :=
  ⟨by decide, rfl, rfl⟩

/-- C9 (amended): the capture-log file name is built from the task name
and a second-resolution timestamp; for one task, runs whose timestamp
strings differ (in particular runs starting in different seconds) never
produce colliding log file names, while runs within the same second may
collide. -/
theorem c9_distinct_seconds_no_collision (name ts1 ts2 : String) (h : ts1 ≠ ts2) :
    logfname name ts1 ≠ logfname name ts2 := by
  intro he
  apply h
  have hd := congrArg String.data he
  simp only [logfname, String.data_append] at hd
  have h1 := List.append_cancel_right hd
  exact String.ext (List.append_cancel_left h1)

theorem c9_witness :
    logfname "home" (timestr 0) ≠ logfname "home" (timestr 100) :=
  c9_distinct_seconds_no_collision "home" (timestr 0) (timestr 100) (by decide)

/-- C10: when the rsync invocation of task `j` fails to launch (OSError),
the capture-log file for task `j` was already opened (created/truncated),
but no wrapper summary lines are written and neither `_duration` nor
`_rsync_returncode` is set for it; the runner still logs the task as
finished and every task, including those after `j`, has its rsync invoked
and the run completes. -/
theorem c10_oserror_skips_summary (isdir : String → Bool) (rs : Nat → CallOutcome)
    (ts : Nat → String) (triples : List (String × String × String)) (j : Nat)
    (n s t : String)
    (hok : ∀ x ∈ triples, taskCheck isdir x.2.1 x.2.2 = true)
    (hj : triples[j]? = some (n, s, t))
    (hos : rs j = .oserror) :
    ((syncMain isdir rs ts triples).2.toOption.bind fun runs => runs[j]?)
        = some ⟨n, logfname n (ts j), true, false, none, false⟩
    ∧ SEvent.logOpened (logfname n (ts j)) ∈ (syncMain isdir rs ts triples).1
    ∧ SEvent.taskFinishedLog n ∈ (syncMain isdir rs ts triples).1
    ∧ rsyncCalls (syncMain isdir rs ts triples).1 = (triples.map fun x => x.1) := by
  have hcon := constructTasks_ok isdir triples hok
  have hjm : (triples.map fun x => (⟨x.1, x.2.1, x.2.2⟩ : SyncDirTask))[j]?
      = some ⟨n, s, t⟩ := by
    rw [List.getElem?_map, hj]
    rfl
  have hget := runTasks_get rs ts (triples.map fun x => ⟨x.1, x.2.1, x.2.2⟩) 0 j ⟨n, s, t⟩ hjm
  have hsub := runTasks_events_sub rs ts (triples.map fun x => ⟨x.1, x.2.1, x.2.2⟩) 0 j
    ⟨n, s, t⟩ hjm
  simp only [Nat.zero_add] at hget hsub
  refine ⟨?_, ?_, ?_, ?_⟩
  · simp only [syncMain, hcon, Except.toOption, Option.bind]
    rw [hget, hos]
    rfl
  · simp only [syncMain, hcon, List.nil_append]
    exact hsub _ (by rw [hos]; simp [runTask])
  · simp only [syncMain, hcon, List.nil_append]
    exact hsub _ (by rw [hos]; simp [runTask])
  · simp only [syncMain, hcon, List.nil_append]
    rw [runTasks_calls]
    simp [List.map_map]

theorem c10_witness :
    ((syncMain (fun _ => true) (fun i => if i = 1 then .oserror else .rc 0) (fun _ => "T")
        [("a", "/s1", "/d"), ("b", "/s2", "/d"), ("c", "/s3", "/d")]).2.toOption.bind
        fun runs => runs[1]?)
        = some ⟨"b", logfname "b" "T", true, false, none, false⟩
    ∧ SEvent.logOpened (logfname "b" "T") ∈ (syncMain (fun _ => true)
        (fun i => if i = 1 then .oserror else .rc 0) (fun _ => "T")
        [("a", "/s1", "/d"), ("b", "/s2", "/d"), ("c", "/s3", "/d")]).1
    ∧ SEvent.taskFinishedLog "b" ∈ (syncMain (fun _ => true)
        (fun i => if i = 1 then .oserror else .rc 0) (fun _ => "T")
        [("a", "/s1", "/d"), ("b", "/s2", "/d"), ("c", "/s3", "/d")]).1
    ∧ rsyncCalls (syncMain (fun _ => true) (fun i => if i = 1 then .oserror else .rc 0)
        (fun _ => "T")
        [("a", "/s1", "/d"), ("b", "/s2", "/d"), ("c", "/s3", "/d")]).1 = ["a", "b", "c"] := by
  have h := c10_oserror_skips_summary (fun _ => true)
    (fun i => if i = 1 then .oserror else .rc 0) (fun _ => "T")
    [("a", "/s1", "/d"), ("b", "/s2", "/d"), ("c", "/s3", "/d")] 1 "b" "/s2" "/d"
    (fun x _ => by revert x; decide) (by decide) rfl
  exact h